import Mathlib

/-!
Formal model of the MathTeacherAgent interactive session controller:
the validation graders (`ValidationActions.tsx`), the number-line demo
player (`MathTeacher.tsx` / `NumberLine`), the interruption classifier
(`DemoInterruptionManager.tsx`), the tool context (`ToolContext.tsx`)
and the frontend rate limiter (`validation.ts`).

JavaScript numbers are modelled as `ℚ` where the value is known finite;
an `Option ℚ` with `none` encodes a non-finite JS number (`NaN` or
`±Infinity`): every comparison the code performs on such a value
(`<`, `===`, `Math.abs ... < eps`) is false in JS, which the model
reproduces.  Character predicates model the ASCII range, which covers
every string the code manipulates.
-/

namespace MathTeacher

/-- JS whitespace test (`\s`, `trim`), restricted to the ASCII characters
strings of this repository contain. -/
def isJsSpace (c : Char) : Bool :=
  c = ' ' || c = '\t' || c = '\n' || c = '\r'

/-- JS `String.prototype.trim` on a character list. -/
def trimChars (l : List Char) : List Char :=
  ((l.dropWhile isJsSpace).reverse.dropWhile isJsSpace).reverse

/-- JS `String.prototype.includes` (substring containment) on
character lists. -/
def listIncludes : List Char → List Char → Bool
  | _, [] => true
  | [], _ :: _ => false
  | a :: as, b :: bs =>
    ((b :: bs).isPrefixOf (a :: as)) || listIncludes as (b :: bs)

/-- JS `String.prototype.includes` on strings. -/
def strIncludes (s sub : String) : Bool :=
  listIncludes s.data sub.data

/-- Leading run of decimal digits (as digit values) together with the
rest of the input: the greedy `\d+` of the problem regexes. -/
def takeDigits : List Char → List ℕ × List Char
  | [] => ([], [])
  | c :: rest =>
    if c.isDigit then
      let (ds, r) := takeDigits rest
      ((c.toNat - 48) :: ds, r)
    else ([], c :: rest)

/-- Value of a digit list, most significant first (`parseInt` on a
captured digit group). -/
def digitsToNat (ds : List ℕ) : ℕ :=
  ds.foldl (fun acc d => 10 * acc + d) 0

/-- Try to match the regex `(\d+)\s*(op)\s*(\d+)` at the head of the
input, where `op` is a character class given by `ops`; returns the
captured groups `(first, operator, second)`. -/
def matchArithAt (ops : List Char) (l : List Char) : Option (ℕ × Char × ℕ) :=
  match takeDigits l with
  | ([], _) => none
  | (d :: ds, rest) =>
    match rest.dropWhile isJsSpace with
    | [] => none
    | c :: rest2 =>
      if ops.contains c then
        match takeDigits (rest2.dropWhile isJsSpace) with
        | ([], _) => none
        | (d2 :: ds2, _) => some (digitsToNat (d :: ds), c, digitsToNat (d2 :: ds2))
      else none

/-- JS `String.prototype.match` with the pattern
`(\d+)\s*(op)\s*(\d+)`: scan positions left to right, return the first
captured groups of the first match.  (No backtracking is needed: a greedy `\d+`
can never be followed by a digit, and `\s*` by a space, so the greedy
parse at each position is the parse the regex performs.) -/
def regexFindArith (ops : List Char) : List Char → Option (ℕ × Char × ℕ)
  | [] => none
  | c :: rest =>
    match matchArithAt ops (c :: rest) with
    | some r => some r
    | none => regexFindArith ops rest

/-- Result object of a grading call, one `Option` field per key the
code only sometimes includes.  `correct_answer` holds an inner
`Option ℚ` because the JS value itself may be non-finite. -/
structure StepResult where
  result : String
  is_correct : Bool
  feedback : String
  hint : String
  mistake_type : Option String
  guidance_level : String
  problem_completed : Option Bool := none
  final_answer : Option ℤ := none
  remaining_steps : Option ℤ := none
  correct_answer : Option (Option ℚ) := none
  deriving Repr, DecidableEq

/-- Model of `validateNumberLineStep` from `ValidationActions.tsx`: grades one
proposed click on the number line against the problem string and the
previously accepted steps.  `Except.error` models the thrown
`Error("Could not parse math problem")`. -/
def validateNumberLineStep (problem : String) (current_steps : List ℤ)
    (proposed_step : ℤ) : Except String StepResult :=
  match regexFindArith ['+', '-'] problem.data with
  | none => .error "Could not parse math problem"
  | some (firstNum, operator, secondNum) =>
    if current_steps = [] then
      if proposed_step = (firstNum : ℤ) then
        .ok { result := "correct", is_correct := true
              feedback := "Perfect! You started at " ++ toString firstNum ++
                ". Now let\x27s count " ++
                (if operator = '+' then "forward" else "backward") ++ "!"
              hint := "Great start! Next, click on " ++
                toString ((firstNum : ℤ) + (if operator = '+' then 1 else -1)) ++ "."
              mistake_type := none, guidance_level := "encouraging" }
      else
        .ok { result := "incorrect", is_correct := false
              feedback := "Let\x27s start at the first number: " ++ toString firstNum
              hint := "Click on " ++ toString firstNum ++ " to begin the problem."
              mistake_type := some "wrong_starting_number"
              guidance_level := "specific" }
    else
      let lastPosition := (current_steps.getLastD 0)
      let expectedNext := lastPosition + (if operator = '+' then 1 else -1)
      let stepsTaken : ℤ := current_steps.length - 1
      if proposed_step = expectedNext then
        let remainingSteps : ℤ := (secondNum : ℤ) - stepsTaken - 1
        if remainingSteps ≤ 0 then
          let finalAnswer : ℤ :=
            (firstNum : ℤ) + (if operator = '+' then (secondNum : ℤ) else -(secondNum : ℤ))
          .ok { result := "correct", is_correct := true
                feedback := "🎉 Fantastic! You solved " ++ problem ++ " = " ++
                  toString finalAnswer ++ "!"
                hint := "Excellent work! You completed the problem step by step."
                mistake_type := none, guidance_level := "celebration"
                problem_completed := some true, final_answer := some finalAnswer }
        else
          .ok { result := "correct", is_correct := true
                feedback := "Great! Keep going - " ++ toString remainingSteps ++
                  " more step" ++ (if remainingSteps > 1 then "s" else "") ++ "."
                hint := "Perfect! Now click on " ++
                  toString (expectedNext + (if operator = '+' then 1 else -1)) ++ "."
                mistake_type := none, guidance_level := "encouraging"
                remaining_steps := some remainingSteps }
      else
        if operator = '+' ∧ proposed_step > expectedNext then
          .ok { result := "incorrect", is_correct := false
                feedback := "Slow down! Let\x27s count one step at a time."
                hint := "Try clicking on " ++ toString expectedNext ++
                  " instead of " ++ toString proposed_step ++ "."
                mistake_type := some "skipping_numbers", guidance_level := "gentle" }
        else if operator = '+' ∧ proposed_step < lastPosition then
          .ok { result := "incorrect", is_correct := false
                feedback := "For addition, we count forward (to the right)!"
                hint := "Click on " ++ toString expectedNext ++
                  " to continue counting forward."
                mistake_type := some "wrong_direction", guidance_level := "specific" }
        else
          .ok { result := "incorrect", is_correct := false
                feedback := "Not quite! Let\x27s count " ++
                  (if operator = '+' then "forward" else "backward") ++
                  " one number at a time."
                hint := "Click on " ++ toString expectedNext ++ " to continue."
                mistake_type := some "incorrect_sequence", guidance_level := "helpful" }

/-- JS `parseFloat` on a character list, character-level part: skip
leading whitespace, an optional sign, then either `Infinity` (a
non-finite result, `none`) or a decimal numeral
`\d*(\.\d*)?([eE][+-]?\d+)?` needing at least one digit; no numeral at
all yields `NaN` (`none`).  The model collapses `NaN` and `±Infinity`
into `none`: the code only ever compares the parsed value with finite
numbers, and all such JS comparisons are false.  Returns the sign, the
integer digits, the fraction digits, and the exponent sign and
digits. -/
def parseFloatDecomp (l : List Char) :
    Option (Bool × List ℕ × List ℕ × Bool × List ℕ) :=
  let l1 := l.dropWhile isJsSpace
  let (neg, l2) : Bool × List Char :=
    match l1 with
    | '-' :: r => (true, r)
    | '+' :: r => (false, r)
    | r => (false, r)
  if "Infinity".data.isPrefixOf l2 then none
  else
    let (ip, l3) := takeDigits l2
    let (fp, l4) :=
      match l3 with
      | '.' :: r => takeDigits r
      | r => ([], r)
    if ip = [] ∧ fp = [] then none
    else
      let (eneg, eds) : Bool × List ℕ :=
        match l4 with
        | e :: r =>
          if e = 'e' ∨ e = 'E' then
            let (es, r2) : Bool × List Char :=
              match r with
              | '-' :: r2 => (true, r2)
              | '+' :: r2 => (false, r2)
              | r2 => (false, r2)
            match takeDigits r2 with
            | ([], _) => (false, [])
            | (eds, _) => (es, eds)
          else (false, [])
        | [] => (false, [])
      some (neg, ip, fp, eneg, eds)

/-- The numeric value of a parsed decimal numeral:
`sign * (int + frac/10^k) * 10^exp`. -/
def parseFloatChars (l : List Char) : Option ℚ :=
  match parseFloatDecomp l with
  | none => none
  | some (neg, ip, fp, eneg, eds) =>
    let sign : ℚ := if neg then -1 else 1
    let mant : ℚ := (digitsToNat ip : ℚ) + (digitsToNat fp : ℚ) / (10 ^ fp.length)
    let expv : ℤ := (if eneg then -1 else 1) * (digitsToNat eds : ℤ)
    some (sign * mant * (10 : ℚ) ^ expv)

/-- JS `parseFloat` on a string. -/
def jsParseFloat (s : String) : Option ℚ :=
  parseFloatChars s.data

/-- JS `String.prototype.trim` on a string. -/
def jsTrim (s : String) : String :=
  ⟨trimChars s.data⟩

/-- The arithmetic of the practice grader switch on the operator.
Division by zero is the one non-finite case (`none`): JS yields
`Infinity` (or `NaN` for `0/0`), values every later comparison
rejects. -/
def evalPracticeOp (operator : Char) (firstNum secondNum : ℚ) : Option ℚ :=
  match operator with
  | '+' => some (firstNum + secondNum)
  | '-' => some (firstNum - secondNum)
  | '*' => some (firstNum * secondNum)
  | '/' => if secondNum = 0 then none else some (firstNum / secondNum)
  | _ => none

/-- JS `Math.abs(u - c) < eps` where `u` and `c` may be non-finite:
any non-finite operand makes the comparison false. -/
def jsAbsLt (u c : Option ℚ) (eps : ℚ) : Bool :=
  match u, c with
  | some u, some c => |u - c| < eps
  | _, _ => false

/-- JS strict equality `u === v` between a possibly non-finite number
and a finite one. -/
def jsEqNum (u : Option ℚ) (v : ℚ) : Bool :=
  match u with
  | some u => u = v
  | none => false

/-- Decimal rendering of the numbers interpolated into the practice
grader feedback strings.  Faithful to JS for integral values (the
only values the development evaluates these strings at); a non-finite
`none` prints as `NaN`. -/
def jsNumToString (x : Option ℚ) : String :=
  match x with
  | some q => if q.den = 1 then toString q.num else toString q
  | none => "NaN"

/-- Model of `validatePracticeStep` from `ValidationActions.tsx`: grades a typed
final answer for a practice problem.  Notable source behaviour kept by
the model: `parseFloat` never throws, so the `catch` branch returning
`mistake_type = "invalid_input"` is unreachable; an unparseable
non-empty input flows on as `NaN` and reaches the generic incorrect
branch. -/
def validatePracticeStep (problem : String) (user_input : String)
    (step_number : ℤ) : Except String StepResult :=
  if jsTrim user_input = "" then
    .ok { result := "needs_guidance", is_correct := false
          feedback := "Please enter your answer to continue."
          hint := "Take your time and think about the problem step by step."
          mistake_type := none, guidance_level := "gentle" }
  else
    let userAnswer : Option ℚ := jsParseFloat (jsTrim user_input)
    match regexFindArith ['+', '-', '*', '/'] problem.data with
    | none => .error "Could not parse math problem"
    | some (firstNum, operator, secondNum) =>
      let correctAnswer : Option ℚ := evalPracticeOp operator firstNum secondNum
      if jsAbsLt userAnswer correctAnswer (1 / 100) then
        .ok { result := "correct", is_correct := true
              feedback := "🎉 Excellent! " ++ problem ++ " = " ++ jsNumToString correctAnswer
              hint := "Great job! You solved it correctly!"
              mistake_type := none, guidance_level := "celebration"
              correct_answer := some correctAnswer }
      else if operator = '+' ∧
          (jsEqNum userAnswer firstNum || jsEqNum userAnswer secondNum) then
        .ok { result := "incorrect", is_correct := false
              feedback := "You entered one of the numbers from the problem. " ++
                "For addition, we need to add them together!"
              hint := "Try adding " ++ toString firstNum ++ " + " ++
                toString secondNum ++ ". What do you get?"
              mistake_type := some "not_adding", guidance_level := "specific" }
      else
        .ok { result := "incorrect", is_correct := false
              feedback := "Not quite right. The correct answer is " ++
                jsNumToString correctAnswer ++ "."
              hint := "Try working through " ++ problem ++ " step by step."
              mistake_type := some "incorrect_calculation"
              guidance_level := if step_number = 1 then "gentle" else "specific"
              correct_answer := some correctAnswer }

/-- Operand record of `parseNumbers` in the `NumberLine` component: the regex
`(\d+)\s*[+\-]\s*(\d+)` captures the two operands, and the operator is
taken from whether the whole problem string contains a plus character,
not from the matched position. -/
structure NLNumbers where
  firstNumber : ℕ
  secondNumber : ℕ
  operator : Char
  deriving Repr, DecidableEq

/-- Model of `parseNumbers` of `NumberLine` (`MathTeacher.tsx`). -/
def parseNumbers (problem : String) : Option NLNumbers :=
  match regexFindArith ['+', '-'] problem.data with
  | none => none
  | some (f, _, s) =>
    some ⟨f, s, if listIncludes problem.data ['+'] then '+' else '-'⟩

/-- JS `String.prototype.replace` with a plain-string pattern: remove
the first occurrence of `sub` (the code uses it to strip the leading
`"📍 "` marker before storing a message in the history). -/
def jsRemoveFirst (sub : List Char) : List Char → List Char
  | [] => []
  | c :: rest =>
    if sub ≠ [] ∧ sub.isPrefixOf (c :: rest) then (c :: rest).drop sub.length
    else c :: jsRemoveFirst sub rest

/-- Model of `sendAndCollectMessage` of `NumberLine`: append the message to the
history with the `"📍 "` marker stripped (the outbound
`sendIntermediateMessage` side effect carries the raw text and is
external to the state). -/
def sendAndCollectMessage (history : List String) (message : String) : List String :=
  history ++ [⟨jsRemoveFirst "📍 ".data message.data⟩]

/-- The `DemoState` of `NumberLine` / `ToolContext`: the snapshot saved on
pause. -/
structure DemoState where
  currentStep : ℕ
  nextStepDelay : ℕ
  pauseReason : Option String := none
  resumeAt : Option ℕ := none
  deriving Repr, DecidableEq

/-- The `NumberLine` component state touched by the demo effect and the
pause/resume controls. -/
structure NLState where
  demoMode : Bool
  isDemoComplete : Bool
  demoStep : ℕ
  isDemoPaused : Bool
  pauseReason : String
  savedDemoState : Option DemoState
  resumeRequested : Bool
  messageHistory : List String
  deriving Repr, DecidableEq

/-- Model of `pauseDemo` of `NumberLine`: no guard on being already paused; it
snapshots the current step with the matching tick delay, saves it with
the reason and the current time, raises the paused flag and emits a
pause narration.  `now` is `Date.now()`. -/
def pauseDemo (reason : String) (now : ℕ) (st : NLState) : NLState :=
  if !st.demoMode || st.isDemoComplete then st
  else
    let currentState : DemoState :=
      { currentStep := st.demoStep
        nextStepDelay := if st.demoStep = 0 then 2000 else 1200
        pauseReason := some reason
        resumeAt := some now }
    { st with
        isDemoPaused := true
        pauseReason := reason
        savedDemoState := some currentState
        messageHistory :=
          sendAndCollectMessage st.messageHistory ("📍 🛑 Demo paused - " ++ reason) }

/-- Model of `resumeDemo` of `NumberLine`, immediate part: bail out when no
saved state exists; otherwise clear the pause flags, mark the resume in
progress and emit a resume narration.  (The 500 ms settle timeout that
re-enters the saved step afterwards is `resumeDemoSettle`.) -/
def resumeDemo (st : NLState) : NLState :=
  match st.savedDemoState with
  | none => st
  | some _ =>
    { st with
        isDemoPaused := false
        pauseReason := ""
        resumeRequested := true
        messageHistory :=
          sendAndCollectMessage st.messageHistory "📍 ▶️ Demo resuming..." }

/-- The body of the 500 ms `setTimeout` of `resumeDemo`: drop the resume
marker and restore the saved step. -/
def resumeDemoSettle (saved : DemoState) (st : NLState) : NLState :=
  { st with resumeRequested := false, demoStep := saved.currentStep }

/-- Narration text of the demo effect at `demoStep = 0`. -/
def demoStartMsg (firstNumber : ℕ) : String :=
  "Let\x27s start at " ++ toString firstNumber ++ "! 👈"

/-- Narration text of the demo effect at `1 ≤ demoStep ≤ secondNumber`. -/
def demoStepMsg (n : NLNumbers) (demoStep : ℕ) : String :=
  if demoStep = 1 then
    "Now let\x27s " ++ (if n.operator = '+' then "add" else "subtract") ++ " " ++
      toString n.secondNumber ++ " step by step..."
  else
    let direction : ℤ := if n.operator = '+' then 1 else -1
    let nextPosition : ℤ := (n.firstNumber : ℤ) + direction * demoStep
    "Step " ++ toString demoStep ++ ": Moving to " ++ toString nextPosition ++
      "... " ++ (if n.operator = '+' then "➡️" else "⬅️")

/-- The computed demo result `firstNumber ± secondNumber`. -/
def demoResult (n : NLNumbers) : ℤ :=
  if n.operator = '+' then (n.firstNumber : ℤ) + n.secondNumber
  else (n.firstNumber : ℤ) - n.secondNumber

/-- Narration text of the final demo effect run. -/
def demoDoneMsg (n : NLNumbers) : String :=
  "🎉 Done! " ++ toString n.firstNumber ++ " " ++ String.mk [n.operator] ++ " " ++
    toString n.secondNumber ++ " = " ++ toString (demoResult n)

/-- Narration text emitted inside the 2000 ms timeout of the final
effect run,
just before the completion callback fires. -/
def demoGreatJobMsg (problem : String) (n : NLNumbers) : String :=
  "📍 ✅ Great job! We successfully solved " ++ problem ++ " and got " ++
    toString (demoResult n) ++ "!"

/-- What an uninterrupted demo run delivers: the result handed to
`onAnswer`, the message list the completion callback receives (the
`messageHistory` closure captured by the final effect run — captured
before the last two narrations are appended), and the full history as
the learner saw it. -/
structure DemoOutcome where
  result : ℤ
  callbackHistory : List String
  fullHistory : List String
  deriving Repr, DecidableEq

/-- One effect run of the `NumberLine` demo loop per tick, iterated
with fuel (the run takes exactly `secondNumber + 2` effect runs).
Mirrors the effect body: step 0 emits the start narration, steps
`1..secondNumber` emit one step narration each, and the final run emits
the done narration, then (after the timeouts) the great-job narration,
and invokes the completion callback with the `messageHistory` value the
final run closed over — the history before the done narration. -/
def runDemoAux (problem : String) (n : NLNumbers) :
    ℕ → ℕ → List String → Option DemoOutcome
  | 0, _, _ => none
  | fuel + 1, demoStep, history =>
    if demoStep = 0 then
      runDemoAux problem n fuel 1
        (sendAndCollectMessage history ("📍 " ++ demoStartMsg n.firstNumber))
    else if demoStep ≤ n.secondNumber then
      runDemoAux problem n fuel (demoStep + 1)
        (sendAndCollectMessage history ("📍 " ++ demoStepMsg n demoStep))
    else
      let h1 := sendAndCollectMessage history ("📍 " ++ demoDoneMsg n)
      let h2 := sendAndCollectMessage h1 (demoGreatJobMsg problem n)
      some { result := demoResult n, callbackHistory := history, fullHistory := h2 }

/-- An uninterrupted demo run of `NumberLine` in demo mode, from mount
to the completion callback.  The initial-instruction effect first emits
the watch narration, then the demo effect ticks through the steps. -/
def runDemo (problem : String) : Option DemoOutcome :=
  match parseNumbers problem with
  | none => none
  | some n =>
    let h0 := sendAndCollectMessage []
      "📍 Watch as I demonstrate the solution step by step!"
    runDemoAux problem n (n.secondNumber + 2) 0 h0

/-- The `ToolType` union of `ToolContext.tsx`. -/
inductive ToolType
  | number_line
  | demonstrate_number_line
  | practice_problem
  | calculator
  deriving Repr, DecidableEq

/-- The string value of a `ToolType` member. -/
def ToolType.str : ToolType → String
  | .number_line => "number_line"
  | .demonstrate_number_line => "demonstrate_number_line"
  | .practice_problem => "practice_problem"
  | .calculator => "calculator"

/-- The `ToolConfig` of `ToolContext.tsx`, restricted to its state-bearing
field: `props`, `respond` and the optional callbacks are opaque
functions with no bearing on the context state. -/
structure ToolConfig where
  type : ToolType
  deriving Repr, DecidableEq

/-- The `ToolProvider` state (`ToolContext.tsx`). -/
structure TCState where
  activeToolConfig : Option ToolConfig
  demoState : Option DemoState
  isDemoPaused : Bool
  isChatBlocked : Bool
  deriving Repr, DecidableEq

/-- The initial `useState` values of the `ToolProvider`. -/
def tcInitial : TCState :=
  { activeToolConfig := none, demoState := none
    isDemoPaused := false, isChatBlocked := false }

/-- Whether the type of the active tool contains the substring
demonstrate (the guard the context pause uses). -/
def tcActiveIsDemo (st : TCState) : Bool :=
  match st.activeToolConfig with
  | some c => strIncludes c.type.str "demonstrate"
  | none => false

/-- Model of `setActiveTool` of `ToolContext.tsx`: installs the new config and
touches nothing else. -/
def setActiveTool (config : Option ToolConfig) (st : TCState) : TCState :=
  { st with activeToolConfig := config }

/-- Model of `clearActiveTool` of `ToolContext.tsx`. -/
def clearActiveTool (st : TCState) : TCState :=
  { st with activeToolConfig := none, demoState := none, isDemoPaused := false }

/-- Model of `pauseDemo` of `ToolContext.tsx`, coupled with the `NumberLine`
state it drives through the `window.__numberLineDemoControl` handle:
no-op unless the type of the active tool contains demonstrate; otherwise
raise the context pause flag and forward the pause to `NumberLine`. -/
def tcPauseDemo (reason : String) (now : ℕ) (st : TCState) (nl : NLState) :
    TCState × NLState :=
  if !(tcActiveIsDemo st) then (st, nl)
  else ({ st with isDemoPaused := true }, pauseDemo reason now nl)

/-- Model of `resumeDemo` of `ToolContext.tsx`, coupled with the `NumberLine`
state: no-op when the context holds no `demoState`; otherwise clear the
context pause flag and forward the resume to `NumberLine`. -/
def tcResumeDemo (st : TCState) (nl : NLState) : TCState × NLState :=
  match st.demoState with
  | none => (st, nl)
  | some _ => ({ st with isDemoPaused := false }, resumeDemo nl)

/-- The invariant claimed for the tool context: if there is no active
tool, or its type is not a demonstration type, then the context holds
no `DemoState`. -/
def TCInv (st : TCState) : Prop :=
  (st.activeToolConfig = none ∨ tcActiveIsDemo st = false) → st.demoState = none

/-- The tool-context states (paired with the driven `NumberLine`
state) reachable from the initial provider state by the four
tool-context operations. -/
inductive TCReach : TCState × NLState → Prop
  | init (nl : NLState) : TCReach (tcInitial, nl)
  | set (c : Option ToolConfig) {p : TCState × NLState} :
      TCReach p → TCReach (setActiveTool c p.1, p.2)
  | clear {p : TCState × NLState} :
      TCReach p → TCReach (clearActiveTool p.1, p.2)
  | pause (reason : String) (now : ℕ) {p : TCState × NLState} :
      TCReach p → TCReach (tcPauseDemo reason now p.1 p.2)
  | resume {p : TCState × NLState} :
      TCReach p → TCReach (tcResumeDemo p.1 p.2)

/-- The `DEMO_KEYWORDS` list of `DemoInterruptionManager.tsx`: continuation
lexicon that must not trigger an interruption. -/
def DEMO_KEYWORDS : List String :=
  ["continue", "resume", "next step", "keep going",
   "proceed", "go on", "demo", "demonstration",
   "show me", "let me see", "continue demo"]

/-- The `QUESTION_INDICATORS` list of `DemoInterruptionManager.tsx`. -/
def QUESTION_INDICATORS : List String :=
  ["what", "how", "why", "when", "where", "who",
   "can you", "could you", "would you", "will you",
   "explain", "tell me", "help me", "?"]

/-- The alternatives of the interrogative-prefix regex
`/^(what|how|why|when|where|who|can|could|would|will|is|are|do|does)\s/i`. -/
def QUESTION_PREFIX_WORDS : List String :=
  ["what", "how", "why", "when", "where", "who", "can", "could",
   "would", "will", "is", "are", "do", "does"]

/-- The trimmed lowercase form `message.toLowerCase().trim()` the
classifier works on. -/
def lowerTrim (message : String) : List Char :=
  trimChars (message.data.map Char.toLower)

/-- Whether the interrogative-prefix regex matches: some alternative is
a prefix and is followed by a whitespace character (the final `\s`
needs an actual character). -/
def startsWithQuestionWord (lowerMessage : List Char) : Bool :=
  QUESTION_PREFIX_WORDS.any fun w =>
    w.data.isPrefixOf lowerMessage &&
      match lowerMessage.drop w.data.length with
      | c :: _ => isJsSpace c
      | [] => false

/-- Model of `isUserQuery` of `DemoInterruptionManager.tsx`: the interruption
classifier.  Messages shorter than 3 characters (after trimming) and
messages containing a continuation keyword are never queries; otherwise
a message is a query iff it contains a question indicator, contains a
question mark, or starts with an interrogative word. -/
def isUserQuery (message : String) : Bool :=
  let lowerMessage := lowerTrim message
  if lowerMessage.length < 3 then false
  else if DEMO_KEYWORDS.any (fun k => listIncludes lowerMessage k.data) then false
  else
    let isQuestion := QUESTION_INDICATORS.any fun k => listIncludes lowerMessage k.data
    let hasQuestionMark := listIncludes lowerMessage ['?']
    let startsWithQuestion := startsWithQuestionWord lowerMessage
    isQuestion || hasQuestionMark || startsWithQuestion

/-- The `FrontendRateLimiter.MAX_CALLS` constant. -/
def MAX_CALLS : ℕ := 5

/-- The `FrontendRateLimiter.WINDOW_MS` constant. -/
def WINDOW_MS : ℕ := 30000

/-- The purge `this.calls.filter(t => now - t < WINDOW_MS)`.  JS
subtraction of a future timestamp would be negative and also kept, as
the `0` of the truncated `ℕ` subtraction is. -/
def rlPurge (now : ℕ) (calls : List ℕ) : List ℕ :=
  calls.filter fun timestamp => now - timestamp < WINDOW_MS

/-- Model of `FrontendRateLimiter.isAllowed`: purge, admit if fewer than
`MAX_CALLS` remain, record the admission.  Returns the verdict and the
new stored timestamp list. -/
def isAllowed (now : ℕ) (calls : List ℕ) : Bool × List ℕ :=
  let purged := rlPurge now calls
  if purged.length ≥ MAX_CALLS then (false, purged)
  else (true, purged ++ [now])

/-- Model of `FrontendRateLimiter.getRemainingCalls`: purge (reassigning the
stored list), report `Math.max(0, MAX_CALLS - n)`. -/
def getRemainingCalls (now : ℕ) (calls : List ℕ) : ℤ × List ℕ :=
  let purged := rlPurge now calls
  (max 0 ((MAX_CALLS : ℤ) - purged.length), purged)

/-- The stored timestamp list after `k` successive `isAllowed` calls
at one instant, starting from an empty history (a burst). -/
def rlBurst (now : ℕ) : ℕ → List ℕ
  | 0 => []
  | k + 1 => (isAllowed now (rlBurst now k)).2

/-- The result object of a grading call that did not throw. -/
def okResult (e : Except String StepResult) : Option StepResult :=
  match e with
  | .ok r => some r
  | .error _ => none

end MathTeacher

namespace MathTeacher

/-- C1: for a problem string parsing as `a op b` with `op ∈ {+, -}`,
the sequential-step grader accepts exactly the arithmetic progression:
with empty `current_steps` it returns correct iff the proposed step is
`a` (otherwise incorrect with mistake type `wrong_starting_number`);
with non-empty `current_steps` it returns correct iff the proposed step
is the last accepted step plus 1 for `+` (minus 1 for `-`); an accepted
step taken when `current_steps` already has length `b` returns correct
with `problem_completed = true` and `final_answer = a op b`, and an
earlier accepted step returns correct with
`remaining_steps = b - length current_steps`. -/
theorem c1_sequential_step_grader
    {problem : String} {a b : ℕ} {op : Char} (steps : List ℤ) (proposed : ℤ)
    (hp : regexFindArith ['+', '-'] problem.data = some (a, op, b))
    (hop : op = '+' ∨ op = '-') :
    (steps = [] →
      (((okResult (validateNumberLineStep problem steps proposed)).map
          StepResult.result = some "correct") ↔ proposed = (a : ℤ)) ∧
      (proposed ≠ (a : ℤ) →
        (okResult (validateNumberLineStep problem steps proposed)).map
            StepResult.result = some "incorrect" ∧
        (okResult (validateNumberLineStep problem steps proposed)).bind
            StepResult.mistake_type = some "wrong_starting_number")) ∧
    (steps ≠ [] →
      (((okResult (validateNumberLineStep problem steps proposed)).map
          StepResult.result = some "correct") ↔
        proposed = steps.getLastD 0 + (if op = '+' then 1 else -1))) ∧
    (steps ≠ [] → steps.length = b →
      proposed = steps.getLastD 0 + (if op = '+' then 1 else -1) →
      ∃ r, validateNumberLineStep problem steps proposed = .ok r ∧
        r.result = "correct" ∧ r.problem_completed = some true ∧
        r.final_answer = some (if op = '+' then (a : ℤ) + b else (a : ℤ) - b)) ∧
    (steps ≠ [] → steps.length < b →
      proposed = steps.getLastD 0 + (if op = '+' then 1 else -1) →
      ∃ r, validateNumberLineStep problem steps proposed = .ok r ∧
        r.result = "correct" ∧
        r.remaining_steps = some ((b : ℤ) - steps.length)) := by
  simp only [validateNumberLineStep, hp, List.getLastD_eq_getLast?]
  refine ⟨?_, ?_, ?_, ?_⟩
  · intro hs
    subst hs
    simp only [if_pos rfl]
    by_cases hpa : proposed = (a : ℤ)
    · simp [hpa, okResult]
    · simp [hpa, okResult]
  · intro hs
    rw [if_neg hs]
    by_cases hpe : proposed = (steps.getLast?).getD 0 + (if op = '+' then 1 else -1)
    · rw [if_pos hpe]
      split
      · simp [okResult, hpe]
      · simp [okResult, hpe]
    · rw [if_neg hpe]
      split_ifs <;> simp_all [okResult]
  · intro hs hlen hpe
    rw [if_neg hs, if_pos hpe]
    have hrem : (b : ℤ) - ((steps.length : ℤ) - 1) - 1 ≤ 0 := by omega
    rw [if_pos hrem]
    rcases hop with h | h <;> subst h <;> simp
    all_goals omega
  · intro hs hlen hpe
    rw [if_neg hs, if_pos hpe]
    have hrem : ¬ ((b : ℤ) - ((steps.length : ℤ) - 1) - 1 ≤ 0) := by
      have : (steps.length : ℤ) < (b : ℤ) := by exact_mod_cast hlen
      omega
    rw [if_neg hrem]
    refine ⟨_, rfl, rfl, ?_⟩
    have : (b : ℤ) - ((steps.length : ℤ) - 1) - 1 = (b : ℤ) - (steps.length : ℤ) := by
      omega
    rw [this]

/-- Appending strings appends their character lists. -/
theorem strData_append (a b : String) : (a ++ b).data = a.data ++ b.data := rfl

/-- JS `includes` of the empty string is always true. -/
theorem listIncludes_nil (l : List Char) : listIncludes l [] = true := by
  cases l <;> rfl

/-- A list is a prefix of itself followed by anything. -/
theorem isPrefixOf_append_self (m s : List Char) : m.isPrefixOf (m ++ s) = true := by
  induction m with
  | nil => cases s <;> rfl
  | cons c cs ih => simp [List.isPrefixOf, ih]

/-- JS `includes` finds a substring placed between two others. -/
theorem listIncludes_append_mid (p m s : List Char) :
    listIncludes (p ++ (m ++ s)) m = true := by
  induction p with
  | nil =>
    cases m with
    | nil => exact listIncludes_nil _
    | cons b bs =>
      simp only [List.nil_append]
      show (List.isPrefixOf (b :: bs) ((b :: bs) ++ s) || _) = true
      rw [isPrefixOf_append_self]
      rfl
  | cons c cs ih =>
    cases m with
    | nil => exact listIncludes_nil _
    | cons b bs =>
      show (List.isPrefixOf (b :: bs) (c :: (cs ++ ((b :: bs) ++ s))) ||
        listIncludes (cs ++ ((b :: bs) ++ s)) (b :: bs)) = true
      rw [ih]
      simp

/-- Witness for C1 at the spec scenario: problem `"5 + 3"`,
`priorSteps = [5]`, `proposedStep = 6` is accepted with
`remaining_steps = 2`. -/
theorem c1_sequential_step_grader_witness :
    ∃ r, validateNumberLineStep "5 + 3" [5] 6 = .ok r ∧
      r.result = "correct" ∧ r.remaining_steps = some 2 := by
  have h := @c1_sequential_step_grader "5 + 3" 5 3 '+' [5] 6 (by decide) (Or.inl rfl)
  obtain ⟨r, hr, hres, hrem⟩ := h.2.2.2 (by decide) (by decide) (by decide)
  exact ⟨r, hr, hres, by simpa using hrem⟩

/-- C6: when the proposed step differs from the expected next number
(non-empty `current_steps`), the mistake is classified as
`skipping_numbers` when the operator is `+` and the proposal overshoots
the expected next number, `wrong_direction` when the operator is `+`
and the proposal moved backward past the last accepted step, and
`incorrect_sequence` in every other case (in particular for every wrong
step under `-`); in all three cases the returned hint names the
expected next number. -/
theorem c6_mistake_classification
    {problem : String} {a b : ℕ} {op : Char} (steps : List ℤ) (proposed : ℤ)
    (hp : regexFindArith ['+', '-'] problem.data = some (a, op, b))
    (hs : steps ≠ [])
    (hne : proposed ≠ steps.getLastD 0 + (if op = '+' then 1 else -1)) :
    ∃ r, validateNumberLineStep problem steps proposed = .ok r ∧
      r.result = "incorrect" ∧
      r.mistake_type = some
        (if op = '+' ∧ proposed > steps.getLastD 0 + 1 then "skipping_numbers"
         else if op = '+' ∧ proposed < steps.getLastD 0 then "wrong_direction"
         else "incorrect_sequence") ∧
      strIncludes r.hint
        (toString (steps.getLastD 0 + (if op = '+' then 1 else -1))) = true := by
  by_cases hop : op = '+'
  · subst hop
    simp only [validateNumberLineStep, hp, List.getLastD_eq_getLast?,
      eq_self_iff_true, true_and, if_true] at hne ⊢
    rw [if_neg hs, if_neg hne]
    by_cases hgt : proposed > (steps.getLast?).getD 0 + 1
    · rw [if_pos hgt, if_pos hgt]
      refine ⟨_, rfl, rfl, rfl, ?_⟩
      show listIncludes _ _ = true
      simp only [strData_append, List.append_assoc]
      exact listIncludes_append_mid _ _ _
    · rw [if_neg hgt, if_neg hgt]
      by_cases hlt : proposed < (steps.getLast?).getD 0
      · rw [if_pos hlt, if_pos hlt]
        refine ⟨_, rfl, rfl, rfl, ?_⟩
        show listIncludes _ _ = true
        simp only [strData_append, List.append_assoc]
        exact listIncludes_append_mid _ _ _
      · rw [if_neg hlt, if_neg hlt]
        refine ⟨_, rfl, rfl, rfl, ?_⟩
        show listIncludes _ _ = true
        simp only [strData_append, List.append_assoc]
        exact listIncludes_append_mid _ _ _
  · simp only [validateNumberLineStep, hp, List.getLastD_eq_getLast?, hop,
      false_and, if_false] at hne ⊢
    rw [if_neg hs, if_neg hne]
    refine ⟨_, rfl, rfl, rfl, ?_⟩
    show listIncludes _ _ = true
    simp only [strData_append, List.append_assoc]
    exact listIncludes_append_mid _ _ _

/-- Witness for C6: problem `"5 + 3"`, prior steps `[5, 6]`, proposed
step `9` overshoots the expected `7`: the grader reports
`skipping_numbers` and the hint names `7`. -/
theorem c6_mistake_classification_witness :
    ∃ r, validateNumberLineStep "5 + 3" [5, 6] 9 = .ok r ∧
      r.result = "incorrect" ∧ r.mistake_type = some "skipping_numbers" ∧
      strIncludes r.hint "7" = true := by
  obtain ⟨r, hr, hres, hmt, hh⟩ :=
    @c6_mistake_classification "5 + 3" 5 3 '+' [5, 6] 9 (by decide) (by decide)
      (by decide)
  refine ⟨r, hr, hres, by simpa using hmt, by simpa using hh⟩

/-- C4 evidence: an empty or whitespace-only input yields
`needs_guidance`, but a non-empty unparseable input does *not* yield
`invalid_input`: `parseFloat` never throws, so the `catch` branch
carrying `invalid_input` is dead and the `NaN` answer falls through to
the generic incorrect branch (`incorrect_calculation`), revealing the
correct answer. -/
theorem c4_practice_invalid_input :
    ((okResult (validatePracticeStep "5 + 3" "   " 1)).map StepResult.result
        = some "needs_guidance") ∧
    ((okResult (validatePracticeStep "5 + 3" "abc" 1)).map StepResult.result
        = some "incorrect") ∧
    ((okResult (validatePracticeStep "5 + 3" "abc" 1)).bind StepResult.mistake_type
        = some "incorrect_calculation") ∧
    ((okResult (validatePracticeStep "5 + 3" "abc" 1)).bind StepResult.mistake_type
        ≠ some "invalid_input") := by
  refine ⟨?_, ?_, ?_, ?_⟩ <;> decide

/-- C7: for a parseable two-operand problem whose computed result is
finite and a numeric user input, the final-answer grader returns
correct (celebration, including the correct answer) iff the input is
within absolute tolerance 0.01 of the computed result; otherwise an
input equal to either raw operand of an addition yields `not_adding`,
and every other wrong answer yields the generic incorrect result that
reveals the correct answer, with guidance `gentle` on step 1 and
`specific` thereafter. -/
theorem c7_final_answer_grader
    {problem user_input : String} {a b : ℕ} {op : Char} {u c : ℚ}
    (step_number : ℤ)
    (hne : jsTrim user_input ≠ "")
    (hu : jsParseFloat (jsTrim user_input) = some u)
    (hp : regexFindArith ['+', '-', '*', '/'] problem.data = some (a, op, b))
    (hc : evalPracticeOp op (a : ℚ) (b : ℚ) = some c) :
    (((okResult (validatePracticeStep problem user_input step_number)).map
        StepResult.result = some "correct") ↔ |u - c| < 1 / 100) ∧
    (|u - c| < 1 / 100 →
      ∃ r, validatePracticeStep problem user_input step_number = .ok r ∧
        r.guidance_level = "celebration" ∧ r.correct_answer = some (some c)) ∧
    (¬ |u - c| < 1 / 100 → op = '+' → (u = (a : ℚ) ∨ u = (b : ℚ)) →
      ∃ r, validatePracticeStep problem user_input step_number = .ok r ∧
        r.result = "incorrect" ∧ r.mistake_type = some "not_adding") ∧
    (¬ |u - c| < 1 / 100 → ¬(op = '+' ∧ (u = (a : ℚ) ∨ u = (b : ℚ))) →
      ∃ r, validatePracticeStep problem user_input step_number = .ok r ∧
        r.result = "incorrect" ∧ r.mistake_type = some "incorrect_calculation" ∧
        r.correct_answer = some (some c) ∧
        r.guidance_level = (if step_number = 1 then "gentle" else "specific")) := by
  simp only [validatePracticeStep, hp, hu, hc]
  rw [if_neg hne]
  by_cases htol : |u - c| < 1 / 100
  · have hb : jsAbsLt (some u) (some c) (1 / 100) = true := decide_eq_true htol
    rw [if_pos hb]
    refine ⟨⟨fun _ => htol, fun _ => by simp [okResult]⟩,
      fun _ => ⟨_, rfl, rfl, rfl⟩,
      fun hn _ _ => absurd htol hn, fun hn _ => absurd htol hn⟩
  · have hb : ¬ (jsAbsLt (some u) (some c) (1 / 100) = true) := fun hcon =>
      htol (of_decide_eq_true hcon)
    rw [if_neg hb]
    by_cases hnadd : op = '+' ∧ (u = (a : ℚ) ∨ u = (b : ℚ))
    · have he : (op = '+' ∧
          (jsEqNum (some u) (a : ℚ) || jsEqNum (some u) (b : ℚ)) = true) := by
        refine ⟨hnadd.1, ?_⟩
        rcases hnadd.2 with h | h <;> simp [jsEqNum, h]
      rw [if_pos he]
      exact ⟨iff_of_false (by simp [okResult]) htol, fun h => absurd h htol,
        fun _ _ _ => ⟨_, rfl, rfl, rfl⟩, fun _ hn => absurd hnadd hn⟩
    · have he : ¬ (op = '+' ∧
          (jsEqNum (some u) (a : ℚ) || jsEqNum (some u) (b : ℚ)) = true) := by
        rintro ⟨h1, h2⟩
        refine hnadd ⟨h1, ?_⟩
        have h2' : jsEqNum (some u) (a : ℚ) = true ∨
            jsEqNum (some u) (b : ℚ) = true := by simpa using h2
        rcases h2' with h | h
        · exact Or.inl (of_decide_eq_true h)
        · exact Or.inr (of_decide_eq_true h)
      rw [if_neg he]
      refine ⟨iff_of_false (by simp [okResult]) htol, fun h => absurd h htol,
        fun _ h1 h2 => absurd ⟨h1, h2⟩ hnadd, fun _ _ => ⟨_, rfl, rfl, rfl, rfl, rfl⟩⟩

/-- Witness for C7 at the spec scenario: problem `"12 / 4"`, input
`"3"` is correct with `correct_answer = 3`; input `"8"` is incorrect
with the generic mistake type and `correct_answer = 3`. -/
theorem c7_final_answer_grader_witness :
    (∃ r, validatePracticeStep "12 / 4" "3" 1 = .ok r ∧
      r.guidance_level = "celebration" ∧ r.correct_answer = some (some 3)) ∧
    (∃ r, validatePracticeStep "12 / 4" "8" 1 = .ok r ∧
      r.result = "incorrect" ∧ r.mistake_type = some "incorrect_calculation" ∧
      r.correct_answer = some (some 3) ∧ r.guidance_level = "gentle") := by
  have hu3 : jsParseFloat (jsTrim "3") = some 3 := by
    have hd : parseFloatDecomp (jsTrim "3").data = some (false, [3], [], false, []) := by
      decide
    simp only [jsParseFloat, parseFloatChars, hd]
    norm_num [digitsToNat, List.foldl]
  have hu8 : jsParseFloat (jsTrim "8") = some 8 := by
    have hd : parseFloatDecomp (jsTrim "8").data = some (false, [8], [], false, []) := by
      decide
    simp only [jsParseFloat, parseFloatChars, hd]
    norm_num [digitsToNat, List.foldl]
  have hc34 : evalPracticeOp '/' ((12 : ℕ) : ℚ) ((4 : ℕ) : ℚ) = some 3 := by
    norm_num [evalPracticeOp, Option.some.injEq]
  constructor
  · exact (@c7_final_answer_grader "12 / 4" "3" 12 4 '/' 3 3 1
      (by decide) hu3 (by decide) hc34).2.1 (by norm_num)
  · obtain ⟨r, hr, h1, h2, h3, h4⟩ :=
      (@c7_final_answer_grader "12 / 4" "8" 12 4 '/' 8 3 1
        (by decide) hu8 (by decide) hc34).2.2.2
        (by norm_num) (by rintro ⟨h, -⟩; exact absurd h (by decide))
    exact ⟨r, hr, h1, h2, h3, by simpa using h4⟩

/-- C2 evidence at the demo scenario of the spec, `"4 + 2"` (`a = 4`,
`b = 2`): the narration from the start message through the done message
is exactly `b + 2 = 4` messages, but the completion callback does *not*
receive the full ordered narration list: the final effect run closes
over the `messageHistory` state value from before the done narration is
appended, so `onAnswer` receives the history missing the last two
messages (the done and great-job narrations) while it does include the
initial watch message. -/
theorem c2_demo_callback_history :
    runDemo "4 + 2" = some
      { result := 6
        callbackHistory :=
          ["Watch as I demonstrate the solution step by step!",
           "Let\x27s start at 4! 👈",
           "Now let\x27s add 2 step by step...",
           "Step 2: Moving to 6... ➡️"]
        fullHistory :=
          ["Watch as I demonstrate the solution step by step!",
           "Let\x27s start at 4! 👈",
           "Now let\x27s add 2 step by step...",
           "Step 2: Moving to 6... ➡️",
           "🎉 Done! 4 + 2 = 6",
           "✅ Great job! We successfully solved 4 + 2 and got 6!"] } ∧
    (runDemo "4 + 2").map DemoOutcome.callbackHistory ≠
      (runDemo "4 + 2").map DemoOutcome.fullHistory := by
  refine ⟨?_, ?_⟩ <;> decide

/-- C3 counterexample: a second `pauseDemo` while the demo is already
paused is not a no-op — it overwrites the saved `DemoState` (fresh
resume marker) and emits an additional pause narration message. -/
theorem c3_pause_not_idempotent :
    (pauseDemo "User query" 200 (pauseDemo "User query" 100
        ⟨true, false, 1, false, "", none, false, []⟩)).savedDemoState ≠
      (pauseDemo "User query" 100
        ⟨true, false, 1, false, "", none, false, []⟩).savedDemoState ∧
    (pauseDemo "User query" 200 (pauseDemo "User query" 100
        ⟨true, false, 1, false, "", none, false, []⟩)).messageHistory ≠
      (pauseDemo "User query" 100
        ⟨true, false, 1, false, "", none, false, []⟩).messageHistory := by
  refine ⟨?_, ?_⟩ <;> decide

/-- C3 amended: `pauseDemo` has no already-paused guard.  A second call
while the demo is paused (demo mode on, not complete) keeps the paused
flag and the frozen step, but overwrites the pause reason, re-saves the
`DemoState` snapshot with the new reason and the new current time as
resume marker, and appends one more pause narration message. -/
theorem c3_pause_second_call (r1 r2 : String) (t1 t2 : ℕ) (st : NLState)
    (hd : st.demoMode = true) (hc : st.isDemoComplete = false) :
    pauseDemo r2 t2 (pauseDemo r1 t1 st) =
      { st with
          isDemoPaused := true
          pauseReason := r2
          savedDemoState := some
            { currentStep := st.demoStep
              nextStepDelay := if st.demoStep = 0 then 2000 else 1200
              pauseReason := some r2
              resumeAt := some t2 }
          messageHistory :=
            sendAndCollectMessage
              (sendAndCollectMessage st.messageHistory ("📍 🛑 Demo paused - " ++ r1))
              ("📍 🛑 Demo paused - " ++ r2) } := by
  simp [pauseDemo, hd, hc]

/-- Witness for the amended C3 at a concrete paused demo state. -/
theorem c3_pause_second_call_witness :
    pauseDemo "b" 200 (pauseDemo "a" 100
        ⟨true, false, 1, false, "", none, false, []⟩) =
      { demoMode := true, isDemoComplete := false, demoStep := 1
        isDemoPaused := true, pauseReason := "b"
        savedDemoState := some
          { currentStep := 1, nextStepDelay := 1200
            pauseReason := some "b", resumeAt := some 200 }
        resumeRequested := false
        messageHistory := ["🛑 Demo paused - a", "🛑 Demo paused - b"] } := by
  have h := c3_pause_second_call "a" "b" 100 200
    ⟨true, false, 1, false, "", none, false, []⟩ rfl rfl
  rw [h]
  decide

/-- C9: calling resume when no saved pause state exists is a no-op,
both in the `NumberLine` component (guard on `savedDemoState`) and in
the tool context (guard on its `demoState`): no state field changes and
no narration message is emitted. -/
theorem c9_resume_no_saved_state
    (st : NLState) (tc : TCState) (nl : NLState)
    (h1 : st.savedDemoState = none) (h2 : tc.demoState = none) :
    resumeDemo st = st ∧ tcResumeDemo tc nl = (tc, nl) := by
  constructor
  · simp only [resumeDemo, h1]
  · simp only [tcResumeDemo, h2]

/-- Witness for C9 at concrete states with no saved pause state. -/
theorem c9_resume_no_saved_state_witness :
    resumeDemo ⟨true, false, 2, false, "", none, false, ["m"]⟩ =
        ⟨true, false, 2, false, "", none, false, ["m"]⟩ ∧
      tcResumeDemo tcInitial ⟨true, false, 2, false, "", none, false, ["m"]⟩ =
        (tcInitial, ⟨true, false, 2, false, "", none, false, ["m"]⟩) :=
  c9_resume_no_saved_state ⟨true, false, 2, false, "", none, false, ["m"]⟩
    tcInitial ⟨true, false, 2, false, "", none, false, ["m"]⟩ rfl rfl

/-- C8 counterexample: `setActiveTool` does not preserve the invariant
"no active demo tool implies no `DemoState`": from a state satisfying
the invariant (demo tool active, `DemoState` present), installing a
calculator config leaves the stale `DemoState` behind, violating the
predicate. -/
theorem c8_setActiveTool_breaks_invariant :
    TCInv { activeToolConfig := some ⟨.demonstrate_number_line⟩
            demoState := some ⟨0, 2000, none, none⟩
            isDemoPaused := true, isChatBlocked := false } ∧
    ¬ TCInv (setActiveTool (some ⟨.calculator⟩)
      { activeToolConfig := some ⟨.demonstrate_number_line⟩
        demoState := some ⟨0, 2000, none, none⟩
        isDemoPaused := true, isChatBlocked := false }) := by
  refine ⟨by unfold TCInv; decide, by unfold TCInv setActiveTool; decide⟩

/-- C8 amended: `clearActiveTool`, `pauseDemo` and `resumeDemo`
preserve the invariant from any state, and `setActiveTool` preserves it
from any state whose `DemoState` is none; moreover no tool-context
operation ever installs a `DemoState`, so every state reachable from
the initial provider state has `DemoState = none` and satisfies the
invariant throughout. -/
theorem c8_invariant_amended :
    (∀ (st : TCState) (c : Option ToolConfig),
      st.demoState = none → TCInv (setActiveTool c st)) ∧
    (∀ st : TCState, TCInv (clearActiveTool st)) ∧
    (∀ (st : TCState) (nl : NLState) (r : String) (t : ℕ),
      TCInv st → TCInv (tcPauseDemo r t st nl).1) ∧
    (∀ (st : TCState) (nl : NLState), TCInv st → TCInv (tcResumeDemo st nl).1) ∧
    (∀ p : TCState × NLState, TCReach p → p.1.demoState = none ∧ TCInv p.1) := by
  refine ⟨?_, ?_, ?_, ?_, ?_⟩
  · intro st c h _
    exact h
  · intro st _
    rfl
  · intro st nl r t hinv
    unfold tcPauseDemo
    split
    · exact hinv
    · exact fun h => hinv h
  · intro st nl hinv
    unfold tcResumeDemo
    split
    · exact hinv
    · exact fun h => hinv h
  · intro p hreach
    induction hreach with
    | init nl => exact ⟨rfl, fun _ => rfl⟩
    | set c hr ih => exact ⟨ih.1, fun _ => ih.1⟩
    | clear hr ih => exact ⟨rfl, fun _ => rfl⟩
    | pause r t hr ih =>
      unfold tcPauseDemo
      split
      · exact ih
      · exact ⟨ih.1, fun _ => ih.1⟩
    | resume hr ih =>
      unfold tcResumeDemo
      split
      · exact ih
      · next d heq =>
        rw [ih.1] at heq
        cases heq

/-- Witness for the amended C8: the initial provider state is reachable
and satisfies the invariant with no `DemoState`. -/
theorem c8_invariant_amended_witness :
    tcInitial.demoState = none ∧ TCInv tcInitial :=
  c8_invariant_amended.2.2.2.2
    (tcInitial, ⟨true, false, 0, false, "", none, false, []⟩)
    (TCReach.init ⟨true, false, 0, false, "", none, false, []⟩)

/-- C10: the interruption classifier returns false for every message
whose trimmed lowercase content is shorter than 3 characters, and for
every message containing a continuation keyword — even when it also
contains a question mark or an interrogative word; for all other
messages it returns true iff the content contains a question
indicator, contains a question mark, or starts with an interrogative
word followed by whitespace. -/
theorem c10_is_user_query (message : String) :
    ((lowerTrim message).length < 3 → isUserQuery message = false) ∧
    (DEMO_KEYWORDS.any (fun k => listIncludes (lowerTrim message) k.data) = true →
      isUserQuery message = false) ∧
    (¬ (lowerTrim message).length < 3 →
      DEMO_KEYWORDS.any (fun k => listIncludes (lowerTrim message) k.data) = false →
      isUserQuery message =
        (QUESTION_INDICATORS.any (fun k => listIncludes (lowerTrim message) k.data) ||
         listIncludes (lowerTrim message) ['?'] ||
         startsWithQuestionWord (lowerTrim message))) := by
  refine ⟨?_, ?_, ?_⟩
  · intro h
    simp [isUserQuery, h]
  · intro h
    by_cases hlen : (lowerTrim message).length < 3
    · simp [isUserQuery, hlen]
    · simp [isUserQuery, hlen, h]
  · intro h1 h2
    simp [isUserQuery, h1, h2]

/-- Witness for C10: `"continue?"` contains the continuation keyword
`continue` and is not a query despite its question mark; `"hm"` is too
short; `"What is 5 + 3"` is a query. -/
theorem c10_is_user_query_witness :
    isUserQuery "continue?" = false ∧ isUserQuery "hm" = false ∧
      isUserQuery "What is 5 + 3" = true := by
  refine ⟨(c10_is_user_query "continue?").2.1 (by decide),
    (c10_is_user_query "hm").1 (by decide), ?_⟩
  have h := (c10_is_user_query "What is 5 + 3").2.2 (by decide) (by decide)
  rw [h]
  decide

/-- C5 counterexample: the quota reporter and a rejected call do
mutate the stored timestamp list — both first purge expired
timestamps in place.  `getRemainingCalls` at `t = 30000` over the
stored list `[0]` drops the expired `0`, and a rejected `isAllowed`
drops it as well while keeping the five in-window timestamps. -/
theorem c5_purge_mutates_state :
    (getRemainingCalls 30000 [0]).2 ≠ [0] ∧
    (isAllowed 30000 [0, 29999, 29999, 29999, 29999, 29999]).1 = false ∧
    (isAllowed 30000 [0, 29999, 29999, 29999, 29999, 29999]).2 ≠
      [0, 29999, 29999, 29999, 29999, 29999] := by
  refine ⟨by decide, by decide, by decide⟩

/-- C5 amended: `isAllowed` admits iff fewer than 5 timestamps survive
the purge, records the admission, and otherwise changes the stored
list only by the purge; `getRemainingCalls` reports
`max 0 (5 - remaining)` and likewise changes the list only by the
purge; the purge is observationally neutral (purging at a later time
gives the same result as purging the original list at that time); a
burst of 6 immediate calls admits exactly the first 5 and rejects the
6th, and a call one full window later is admitted again. -/
theorem c5_rate_limiter (now now2 : ℕ) (calls : List ℕ) (h : now ≤ now2) :
    ((isAllowed now calls).1 = true ↔ (rlPurge now calls).length < MAX_CALLS) ∧
    ((isAllowed now calls).1 = true →
      (isAllowed now calls).2 = rlPurge now calls ++ [now]) ∧
    ((isAllowed now calls).1 = false → (isAllowed now calls).2 = rlPurge now calls) ∧
    (getRemainingCalls now calls =
      (max 0 ((MAX_CALLS : ℤ) - (rlPurge now calls).length), rlPurge now calls)) ∧
    (rlPurge now2 (rlPurge now calls) = rlPurge now2 calls) ∧
    ((∀ k, k < 5 → (isAllowed 0 (rlBurst 0 k)).1 = true) ∧
      (isAllowed 0 (rlBurst 0 5)).1 = false ∧
      (isAllowed WINDOW_MS (rlBurst 0 5)).1 = true) := by
  refine ⟨?_, ?_, ?_, rfl, ?_, by decide, by decide, by decide⟩
  · by_cases hge : (rlPurge now calls).length ≥ MAX_CALLS
    · simp only [isAllowed, if_pos hge]
      exact ⟨fun hcon => by simp at hcon, fun hlt => by omega⟩
    · simp only [isAllowed, if_neg hge]
      exact ⟨fun _ => by omega, fun _ => trivial⟩
  · by_cases hge : (rlPurge now calls).length ≥ MAX_CALLS
    · simp only [isAllowed, if_pos hge]
      intro hcon
      simp at hcon
    · simp only [isAllowed, if_neg hge]
      intro _
      trivial
  · by_cases hge : (rlPurge now calls).length ≥ MAX_CALLS
    · simp only [isAllowed, if_pos hge]
      intro _
      trivial
    · simp only [isAllowed, if_neg hge]
      intro hcon
      simp at hcon
  · unfold rlPurge
    rw [List.filter_filter]
    refine List.filter_congr fun t ht => ?_
    by_cases h2 : now2 - t < WINDOW_MS
    · have h1 : now - t < WINDOW_MS := by omega
      simp [h1, h2]
    · simp [h2]

/-- Witness for the amended C5 at concrete inputs: purging at time 10
after purging at time 5 equals purging at 10 directly, and a call at
time 5 over the stored list `[1]` is admitted. -/
theorem c5_rate_limiter_witness :
    rlPurge 10 (rlPurge 5 [1]) = rlPurge 10 [1] ∧
      ((isAllowed 5 [1]).1 = true ↔ (rlPurge 5 [1]).length < MAX_CALLS) :=
  ⟨(c5_rate_limiter 5 10 [1] (by decide)).2.2.2.2.1,
   (c5_rate_limiter 5 10 [1] (by decide)).1⟩

end MathTeacher
